import Mathlib

set_option autoImplicit false

/-!
# Verification of the RedNote-Extract extraction-and-fallback engine

Shallow embedding of the consolidated extraction module of the repository
(the `downloader` module with Feed-API video support, the background
cache handlers, and the DOM fallbacks), together with proofs about the
properties its specification states.

Conventions of the embedding:

* JavaScript strings are `String`; template interpolation of numbers
  (`` `image_${n}` ``) is modelled by the structural decimal printer
  `natDecimalString` below (JS prints naturals in decimal).
* Nullable / possibly-absent JSON fields are `Option`.  A field access on a
  malformed payload throws a `TypeError` in JS; since every parser of the
  module wraps its body in `try { ... } catch { return empty }`, the
  embedding returns the empty result on such payloads.
* The live DOM and the network are inputs: a `Dom` record of query
  functions and an `Env` record with the page location, the parsed query
  string, the comment-API response the network would deliver, and the
  current time.
* `Array.prototype.sort` with comparator `(a, b) => b.w*b.h - a.w*a.h` is
  (since ES2019) a stable descending sort by area; it is modelled by the
  stable insertion sort `sortByAreaDesc`, and its in-place mutation of the
  cached payload is modelled by `parseMediaFromFeedFull` returning the
  post-state of the payload alongside the parsed media list.
-/

/-! ## A verified decimal printer (JS number-to-string interpolation) -/

/-- Fuel-driven decimal printer core: digits of `n`, most significant first.
Structural in the fuel so that it reduces in the kernel. -/
def decimalAux : Nat → Nat → List Char
  | 0, _ => []
  | fuel + 1, n =>
    if n < 10 then [Nat.digitChar n]
    else decimalAux fuel (n / 10) ++ [Nat.digitChar (n % 10)]

/-- Decimal digit list of `n`, most significant first (what JS `${n}` prints). -/
def natDecimal (n : Nat) : List Char := decimalAux (n + 1) n

/-- Decimal string of a natural number, as produced by JS template strings. -/
def natDecimalString (n : Nat) : String := String.mk (natDecimal n)

theorem decimalAux_stable : ∀ f g n, n < f → n < g → decimalAux f n = decimalAux g n := by
  intro f
  induction f with
  | zero => intro g n h; omega
  | succ f ih =>
    intro g n hf hg
    cases g with
    | zero => omega
    | succ g =>
      by_cases h10 : n < 10
      · simp [decimalAux, h10]
      · have hn : 0 < n := by omega
        have hdiv : n / 10 < n := Nat.div_lt_self hn (by omega)
        simp only [decimalAux, h10, if_false]
        rw [ih g (n / 10) (by omega) (by omega)]

theorem natDecimal_eq (n : Nat) :
    natDecimal n =
      if n < 10 then [Nat.digitChar n]
      else natDecimal (n / 10) ++ [Nat.digitChar (n % 10)] := by
  by_cases h10 : n < 10
  · simp [natDecimal, decimalAux, h10]
  · have hn : 0 < n := by omega
    have hdiv : n / 10 < n := Nat.div_lt_self hn (by omega)
    rw [show natDecimal n = decimalAux (n + 1) n from rfl]
    simp only [decimalAux, h10, if_false]
    rw [decimalAux_stable n (n / 10 + 1) (n / 10) (by omega) (by omega)]
    rfl

theorem digitChar_isDigit_of_lt_ten (d : Nat) (h : d < 10) :
    (Nat.digitChar d).isDigit = true ∧ (Nat.digitChar d).toNat - 48 = d := by
  interval_cases d <;> exact ⟨rfl, rfl⟩

/-- Decimal decoder used only to certify injectivity of the printer. -/
def decodeDecimalFrom (acc : Nat) : List Char → Option Nat
  | [] => some acc
  | c :: rest =>
    if c.isDigit then decodeDecimalFrom (acc * 10 + (c.toNat - 48)) rest else none

theorem decodeDecimalFrom_append (acc : Nat) (l₁ l₂ : List Char) :
    decodeDecimalFrom acc (l₁ ++ l₂) =
      match decodeDecimalFrom acc l₁ with
      | some a => decodeDecimalFrom a l₂
      | none => none := by
  induction l₁ generalizing acc with
  | nil => simp [decodeDecimalFrom]
  | cons c rest ih =>
    by_cases hc : c.isDigit
    · simp [decodeDecimalFrom, hc, ih]
    · simp [decodeDecimalFrom, hc]

theorem decodeDecimalFrom_natDecimal (n : Nat) : ∀ acc,
    decodeDecimalFrom acc (natDecimal n) = some (acc * 10 ^ (natDecimal n).length + n) := by
  induction n using Nat.strong_induction_on with
  | _ n ih =>
    intro acc
    rw [natDecimal_eq]
    by_cases h10 : n < 10
    · obtain ⟨hd, hv⟩ := digitChar_isDigit_of_lt_ten n h10
      simp [decodeDecimalFrom, hd, hv, h10]
    · have hn : 0 < n := by omega
      have hdiv : n / 10 < n := Nat.div_lt_self hn (by omega)
      obtain ⟨hd, hv⟩ := digitChar_isDigit_of_lt_ten (n % 10) (Nat.mod_lt n (by omega))
      simp only [h10, if_false, decodeDecimalFrom_append]
      rw [ih (n / 10) hdiv acc]
      simp only [decodeDecimalFrom, hd, if_true, hv]
      have : (acc * 10 ^ (natDecimal (n / 10)).length + n / 10) * 10 + n % 10 =
          acc * 10 ^ ((natDecimal (n / 10)).length + 1) + n := by
        have hmod := Nat.div_add_mod n 10
        ring_nf
        omega
      simp [List.length_append, this]

theorem natDecimal_injective : Function.Injective natDecimal := by
  intro n m h
  have hn := decodeDecimalFrom_natDecimal n 0
  have hm := decodeDecimalFrom_natDecimal m 0
  rw [h] at hn
  rw [hn] at hm
  simpa using hm

theorem natDecimalString_injective : Function.Injective natDecimalString := by
  intro n m h
  exact natDecimal_injective (congrArg String.data h)

/-! ## String helpers mirroring the JS string operations used by the module -/

/-- Core of `strContains`: does `pat` occur in the list? -/
def containsAux (pat : List Char) : List Char → Bool
  | [] => pat.isEmpty
  | l@(_ :: rest) => pat.isPrefixOf l || containsAux pat rest

/-- JS `s.includes(pat)` (substring test). -/
def strContains (s pat : String) : Bool := containsAux pat.toList s.toList

/-- Core of `replaceFirst`: replace the first occurrence of `pat`. -/
def replaceFirstAux (pat repl : List Char) : List Char → List Char
  | [] => []
  | l@(c :: rest) =>
    if pat.isPrefixOf l then repl ++ l.drop pat.length
    else c :: replaceFirstAux pat repl rest

/-- JS `s.replace(pat, repl)` with a *string* pattern: replaces only the first
occurrence. -/
def replaceFirst (s pat repl : String) : String :=
  String.mk (replaceFirstAux pat.toList repl.toList s.toList)

/-- Core of `jsTrim`. -/
def trimChars (l : List Char) : List Char :=
  ((l.dropWhile Char.isWhitespace).reverse.dropWhile Char.isWhitespace).reverse

/-- JS `s.trim()` (kernel-computable model of whitespace trimming). -/
def jsTrim (s : String) : String := String.mk (trimChars s.toList)

/-- Core of `jsSplitNewline`. -/
def splitOnNewline : List Char → List (List Char)
  | [] => [[]]
  | c :: rest =>
    let r := splitOnNewline rest
    if c = '\n' then [] :: r
    else
      match r with
      | [] => [[c]]
      | x :: xs => (c :: x) :: xs

/-- JS `s.split("\n")`. -/
def jsSplitNewline (s : String) : List String := (splitOnNewline s.toList).map String.mk

/-- JS `url.replace(/\?.*$/, "")`: drop everything from the first `?` on. -/
def stripQuery (s : String) : String := String.mk (s.toList.takeWhile (· ≠ '?'))

/-- JS `url.replace(/_\d+x\d+\./, ".")`: replace the first inline
`_<digits>x<digits>.` size-suffix by `.` (greedy digit runs, as the regex
engine matches them). -/
def dropSizeSuffixAux : List Char → List Char
  | [] => []
  | c :: rest =>
    if c = '_' then
      let ds := rest.takeWhile Char.isDigit
      if ds.isEmpty then c :: dropSizeSuffixAux rest
      else
        match rest.drop ds.length with
        | 'x' :: r2 =>
          let ds2 := r2.takeWhile Char.isDigit
          if ds2.isEmpty then c :: dropSizeSuffixAux rest
          else
            match r2.drop ds2.length with
            | '.' :: r4 => '.' :: r4
            | _ => c :: dropSizeSuffixAux rest
        | _ => c :: dropSizeSuffixAux rest
    else c :: dropSizeSuffixAux rest

/-- See `dropSizeSuffixAux`. -/
def dropSizeSuffix (s : String) : String := String.mk (dropSizeSuffixAux s.toList)

/-- JS `parseInt(s, 10) || 0`: optional whitespace, optional sign, leading
decimal digits; `NaN` (no digits) collapses to `0` through `|| 0`. -/
def jsParseIntOr0 (s : String) : Int :=
  let cs := s.toList.dropWhile Char.isWhitespace
  let signed : Bool × List Char :=
    match cs with
    | '-' :: rest => (true, rest)
    | '+' :: rest => (false, rest)
    | _ => (false, cs)
  let ds := signed.2.takeWhile Char.isDigit
  if ds.isEmpty then 0
  else
    let v : Nat := ds.foldl (fun n c => n * 10 + (c.toNat - 48)) 0
    if signed.1 then -(v : Int) else (v : Int)

/-- First-occurrence-preserving deduplication: JS `Array.from(new Set(xs))`. -/
def dedupFirst : List String → List String :=
  go []
where
  go (seen : List String) : List String → List String
    | [] => []
    | x :: xs => if x ∈ seen then go seen xs else x :: go (x :: seen) xs

/-! ## Data model (the TypeScript interfaces of the module) -/

/-- `MediaItem` of the module.  `type` is the TS literal union
`"image" | "video"`, kept as a string. -/
structure MediaItem where
  url : String
  type : String
  filename : String
deriving DecidableEq

/-- `NoteContent` of the module. -/
structure NoteContent where
  title : String
  author : String
  content : String
  url : String
deriving DecidableEq

/-- A reply inside `CommentItem.replies`.  `createTime` (a JS `Date`) is the
epoch-milliseconds number it was constructed from. -/
structure CommentReply where
  author : String
  content : String
  createTime : Nat
  likeCount : Int
deriving DecidableEq

/-- `CommentItem` of the module. -/
structure CommentItem where
  id : String
  author : String
  content : String
  createTime : Nat
  likeCount : Int
  ipLocation : String
  replies : List CommentReply
deriving DecidableEq

/-- `ExtendedNoteContent` of the module (flattened: it extends `NoteContent`). -/
structure ExtendedNoteContent where
  title : String
  author : String
  content : String
  url : String
  wordCount : Nat
  charCount : Nat
  comments : List CommentItem
  extractedAt : String
deriving DecidableEq

/-- One entry of a video codec-family stream list (`stream.h264` / `stream.h265`). -/
structure StreamEntry where
  master_url : String
  width : Nat
  height : Nat
  quality_type : String
  format : String
  backup_urls : List String
deriving DecidableEq

/-- The two codec-family stream lists of a video note. -/
structure VideoStream where
  h264 : List StreamEntry
  h265 : List StreamEntry
deriving DecidableEq

/-- `video.media` of a feed note card. -/
structure VideoMedia where
  stream : VideoStream
deriving DecidableEq

/-- `video` of a feed note card. -/
structure NoteVideo where
  media : VideoMedia
deriving DecidableEq

/-- One `info_list` entry of an image. -/
structure ImageInfo where
  image_scene : String
  url : String
deriving DecidableEq

/-- One `image_list` entry of a feed note card. -/
structure ImageEntry where
  url_default : String
  url_pre : String
  width : Nat
  height : Nat
  info_list : List ImageInfo
deriving DecidableEq

/-- `user` of a feed note card. -/
structure NoteUser where
  nickname : String
  user_id : String
  avatar : String
deriving DecidableEq

/-- One `tag_list` entry of a feed note card. -/
structure NoteTag where
  id : String
  name : String
  type : String
deriving DecidableEq

/-- `interact_info` of a feed note card. -/
structure InteractInfo where
  liked_count : String
  collected_count : String
  comment_count : String
  share_count : String
deriving DecidableEq

/-- `FeedNoteCard` of the module.  `type` is the TS literal union
`"normal" | "video"`. -/
structure FeedNoteCard where
  title : String
  desc : String
  note_id : String
  type : String
  user : NoteUser
  image_list : Option (List ImageEntry)
  video : Option NoteVideo
  tag_list : Option (List NoteTag)
  interact_info : InteractInfo
  time : Nat
  ip_location : Option String
deriving DecidableEq

/-- One item of the feed payload. -/
structure FeedItem where
  id : String
  model_type : String
  note_card : FeedNoteCard
deriving DecidableEq

/-- `data` of the feed payload.  `items` is `Option` so that a payload whose
item list is missing (a malformed interception result) is representable: a
field access on it throws in JS and every parser catches that and returns
its empty result. -/
structure FeedData where
  items : Option (List FeedItem)
  current_time : Nat
  cursor_score : String
deriving DecidableEq

/-- `FeedApiResponse` of the module: the cached/intercepted feed payload. -/
structure FeedApiResponse where
  code : Int
  success : Bool
  msg : String
  data : FeedData
deriving DecidableEq

/-- `DownloadProgress` of the module; `status` is the TS literal union
`"downloading" | "complete" | "error"`. -/
structure DownloadProgress where
  current : Nat
  total : Nat
  status : String
deriving DecidableEq

/-! ## Environment: page location, query string, network, time, DOM -/

/-- A `<video>` element as far as the module inspects it: `currentSrc`,
`src` (both `""` when unset, as in the DOM), and the `src` of its nested
`<source>` children. -/
structure VideoEl where
  currentSrc : String
  src : String
  sources : List String

/-- A comment-like DOM element: its `textContent` and the `textContent` of
its first author-ish descendant (`none` when no such descendant exists). -/
structure DomCommentEl where
  text : String
  authorText : Option String

/-- The read-only view of the live document the module queries. -/
structure Dom where
  /-- `document.title`. -/
  docTitle : String
  /-- `document.querySelector(sel)?.textContent` (`none`: no element). -/
  queryText : String → Option String
  /-- `document.body.textContent`. -/
  bodyText : String
  /-- `src` attributes of `document.querySelectorAll(sel)` image elements
  (`none`: element without a `src` attribute). -/
  queryImgSrcs : String → List (Option String)
  /-- `document.querySelector(sel)` for video selectors. -/
  queryVideo : String → Option VideoEl
  /-- `document.querySelectorAll(sel)` for comment selectors. -/
  queryComments : String → List DomCommentEl

/-- `user_info` of an API comment. -/
structure ApiUserInfo where
  user_id : String
  nickname : String
  image : String
deriving DecidableEq

/-- `user_info` of an API sub-comment (only `nickname`). -/
structure ApiSubUserInfo where
  nickname : String
deriving DecidableEq

/-- One `sub_comments` entry of an API comment. -/
structure ApiSubComment where
  content : String
  create_time : Nat
  like_count : String
  user_info : ApiSubUserInfo
deriving DecidableEq

/-- One comment of the comment-API response. -/
structure ApiComment where
  id : String
  content : String
  create_time : Nat
  like_count : String
  ip_location : String
  user_info : ApiUserInfo
  sub_comments : Option (List ApiSubComment)
  sub_comment_count : String
deriving DecidableEq

/-- `data` of the comment-API response; `comments` is `Option` because the
parser guards `!apiResponse?.data?.comments`. -/
structure ApiCommentData where
  comments : Option (List ApiComment)
deriving DecidableEq

/-- `ApiCommentResponse` of the module. -/
structure ApiCommentResponse where
  data : ApiCommentData
deriving DecidableEq

/-- Page location, query string, the response the comment API would deliver,
and the clock. -/
structure Env where
  /-- `window.location.pathname`. -/
  pathname : String
  /-- `window.location.href`. -/
  href : String
  /-- The parsed `window.location.search` (`URLSearchParams` view):
  key/value pairs in order. -/
  searchParams : List (String × String)
  /-- The parsed body the comment API responds with; `none` models a network
  failure, a non-2xx response or a JSON parse error (all caught). -/
  commentApi : Option ApiCommentResponse
  /-- `Date.now()` in epoch milliseconds. -/
  now : Nat
  /-- `new Date().toISOString()`. -/
  nowISO : String

/-- `URLSearchParams.get(key)`: first value for the key, `none` if absent. -/
def lookupParam (params : List (String × String)) (key : String) : Option String :=
  (params.find? (fun p => p.1 == key)).map (·.2)

/-! ## Identifier Resolver: `extractNoteId` -/

/-- Is `c` matched by the character class `[a-f0-9]`? -/
def isHexLowerChar (c : Char) : Bool := c.isDigit || ('a' ≤ c && c ≤ 'f')

/-- Backtracking scan of `pathname.match(/\/explore\/([a-f0-9]+)/)`: at each
position, if the literal `/explore/` matches and at least one `[a-f0-9]`
follows, capture the maximal hex run; otherwise advance one character. -/
def findExploreId : List Char → Option String
  | [] => none
  | l@(_ :: rest) =>
    if ("/explore/".toList).isPrefixOf l then
      let after := l.drop ("/explore/".toList).length
      let run := after.takeWhile isHexLowerChar
      if run.isEmpty then findExploreId rest else some (String.mk run)
    else findExploreId rest

/-- `extractNoteId()` of the module, with the page path as explicit input. -/
def extractNoteId (pathname : String) : Option String :=
  findExploreId pathname.toList

/-! ## Video stream selection: JS `sort` with `(a, b) => b.w*b.h - a.w*a.h` -/

/-- `width * height` of a stream entry (the comparator key). -/
def area (e : StreamEntry) : Nat := e.width * e.height

/-- Insert into a descending-by-area list, before the first strictly smaller
entry (ties keep the incoming — originally earlier — entry first). -/
def insertByAreaDesc (x : StreamEntry) : List StreamEntry → List StreamEntry
  | [] => [x]
  | y :: t => if area y ≤ area x then x :: y :: t else y :: insertByAreaDesc x t

/-- Stable descending sort by area: the ES2019 semantics of
`list.sort((a, b) => b.width * b.height - a.width * a.height)`. -/
def sortByAreaDesc : List StreamEntry → List StreamEntry
  | [] => []
  | x :: xs => insertByAreaDesc x (sortByAreaDesc xs)

/-- `sortedStreams[0]`: the entry the module selects from a codec family. -/
def selectStream (l : List StreamEntry) : Option StreamEntry := (sortByAreaDesc l).head?

/-! ## Media normalizer: `parseMediaFromFeed` -/

/-- The image part of `parseMediaFromFeed`: one `MediaItem` per `image_list`
entry.  `info_list.find(i => i.image_scene === "WB_DFT")?.url || url_default`:
note the `||` also falls back when the found URL is the empty string. -/
def imageMediaOf (imgs : List ImageEntry) : List MediaItem :=
  imgs.enum.map (fun p =>
    let img := p.2
    let highQualityUrl :=
      match img.info_list.find? (fun info => info.image_scene == "WB_DFT") with
      | some info => if info.url = "" then img.url_default else info.url
      | none => img.url_default
    let ext :=
      if strContains highQualityUrl ".jpg" || strContains highQualityUrl ".jpeg" then "jpg"
      else if strContains highQualityUrl ".png" then "png"
      else "webp"
    { url := highQualityUrl, type := "image",
      filename := "image_" ++ natDecimalString (p.1 + 1) ++ "." ++ ext })

/-- The video part of `parseMediaFromFeed`: prefer the `h264` family, fall
back to `h265`; within the chosen family take `sorted[0]`; push the item
only when `bestVideoUrl` is truthy (`if (bestVideoUrl)`). -/
def videoMediaOf (st : VideoStream) : List MediaItem :=
  if st.h264.isEmpty then
    if st.h265.isEmpty then []
    else
      match selectStream st.h265 with
      | some e =>
        if e.master_url = "" then []
        else [{ url := e.master_url, type := "video", filename := "video_1.mp4" }]
      | none => []
  else
    match selectStream st.h264 with
    | some e =>
      if e.master_url = "" then []
      else [{ url := e.master_url, type := "video", filename := "video_1.mp4" }]
    | none => []

/-- Replace the first element satisfying `p` by `f` of it (`Array.find` hands
out a reference; the module mutates what it found). -/
def updateFirst (p : FeedItem → Bool) (f : FeedItem → FeedItem) :
    List FeedItem → List FeedItem
  | [] => []
  | x :: xs => if p x then f x :: xs else x :: updateFirst p f xs

/-- The in-place effect of `stream.h264.sort(...)` (resp. `h265`) on the
matched item, mirroring the branch structure of the video path. -/
def sortItemStreams (it : FeedItem) : FeedItem :=
  match it.note_card.video with
  | none => it
  | some v =>
    let st := v.media.stream
    if st.h264.isEmpty then
      if st.h265.isEmpty then it
      else { it with note_card := { it.note_card with
        video := some ⟨⟨⟨st.h264, sortByAreaDesc st.h265⟩⟩⟩ } }
    else { it with note_card := { it.note_card with
      video := some ⟨⟨⟨sortByAreaDesc st.h264, st.h265⟩⟩⟩ } }

/-- `parseMediaFromFeed` together with the post-state of the cached payload
(the JS `sort` mutates the stream list of the matched item in place; every
other path leaves the payload untouched). -/
def parseMediaFromFeedFull (env : Env) (feedData : FeedApiResponse) :
    List MediaItem × FeedApiResponse :=
  match extractNoteId env.pathname with
  | none => ([], feedData)
  | some currentNoteId =>
    match feedData.data.items with
    | none => ([], feedData)  -- malformed payload: access throws, caught, `[]`
    | some items =>
      match items.find? (fun it => it.note_card.note_id == currentNoteId) with
      | none => ([], feedData)
      | some noteItem =>
        let noteCard := noteItem.note_card
        let imageItems :=
          match noteCard.image_list with
          | some imgs => imageMediaOf imgs  -- the `length > 0` guard is redundant
          | none => []
        if noteCard.type = "video" then
          match noteCard.video with
          | some v =>
            (imageItems ++ videoMediaOf v.media.stream,
             { feedData with data := { feedData.data with
               items := some (updateFirst
                 (fun it => it.note_card.note_id == currentNoteId) sortItemStreams items) } })
          | none => (imageItems, feedData)
        else (imageItems, feedData)

/-- `parseMediaFromFeed(feedData)` of the module (its returned media list). -/
def parseMediaFromFeed (env : Env) (feedData : FeedApiResponse) : List MediaItem :=
  (parseMediaFromFeedFull env feedData).1

/-! ## Content normalizer: `parseNoteContentFromFeed` -/

/-- `parseNoteContentFromFeed(feedData)` of the module. -/
def parseNoteContentFromFeed (env : Env) (feedData : FeedApiResponse) :
    Option NoteContent :=
  match extractNoteId env.pathname with
  | none => none
  | some currentNoteId =>
    match feedData.data.items with
    | none => none  -- malformed payload: access throws, caught, `null`
    | some items =>
      match items.find? (fun it => it.note_card.note_id == currentNoteId) with
      | none => none
      | some noteItem =>
        if noteItem.model_type = "note" then
          let noteCard := noteItem.note_card
          some { title := if noteCard.title = "" then "无标题" else noteCard.title,
                 author := if noteCard.user.nickname = "" then "未知作者" else noteCard.user.nickname,
                 content := if noteCard.desc = "" then "无内容" else noteCard.desc,
                 url := env.href }
        else none

/-! ## DOM content extraction: `extractNoteContentFromDOM` -/

/-- The ordered author selector list of `extractNoteContentFromDOM`. -/
def authorSelectors : List String :=
  [".username",
   ".info .name .username",
   "[class*=\"info\"] .username",
   ".author-name",
   "[class*=\"author\"] [class*=\"name\"]",
   ".user-name",
   "[class*=\"user\"] [class*=\"name\"]",
   ".nickname",
   "[data-v-*] .name",
   "[class*=\"info\"] [class*=\"name\"]"]

/-- The ordered content selector list of `extractNoteContentFromDOM`. -/
def contentSelectors : List String :=
  [".note-content .desc",
   ".note-text",
   "[class*=\"content\"] [class*=\"desc\"]",
   ".desc",
   "[class*=\"detail\"] [class*=\"desc\"]",
   ".note-content .text",
   "[class*=\"content\"]"]

/-- First selector whose element has non-empty trimmed text (the author
loop breaks on the first hit). -/
def firstSelectorText (dom : Dom) : List String → String
  | [] => ""
  | sel :: rest =>
    match dom.queryText sel with
    | some t => if jsTrim t = "" then firstSelectorText dom rest else jsTrim t
    | none => firstSelectorText dom rest

/-- The content loop keeps the longest trimmed text over all selectors
(strictly longer replaces, so the earliest longest wins). -/
def longestSelectorText (dom : Dom) (sels : List String) : String :=
  sels.foldl
    (fun content sel =>
      match dom.queryText sel with
      | some t =>
        let text := jsTrim t
        if text ≠ "" ∧ text.length > content.length then text else content
      | none => content)
    ""

/-- The final step of `extractNoteContentFromDOM`: return `null` when all
three fields are empty, else fill empty fields with their placeholders. -/
def mkNoteContent (title author content href : String) : Option NoteContent :=
  if title = "" ∧ author = "" ∧ content = "" then none
  else some
    { title := if title = "" then "无标题" else title,
      author := if author = "" then "未知作者" else author,
      content := if content = "" then "无内容" else content,
      url := href }

/-- `extractNoteContentFromDOM()` of the module. -/
def extractNoteContentFromDOM (env : Env) (dom : Dom) : Option NoteContent :=
  let title0 := jsTrim (replaceFirst dom.docTitle " - 小红书" "")
  let title :=
    if title0 = "小红书" ∨ title0 = "" then
      match dom.queryText ".note-title, [class*=\"title\"], h1" with
      | some t => if jsTrim t = "" then title0 else jsTrim t
      | none => title0
    else title0
  let author := firstSelectorText dom authorSelectors
  let content0 := longestSelectorText dom contentSelectors
  let content :=
    if content0 = "" then
      let lines := (jsSplitNewline dom.bodyText).filter (fun line => (jsTrim line).length > 20)
      if lines.isEmpty then content0
      else jsTrim (String.intercalate "\n" (lines.take 10))
    else content0
  mkNoteContent title author content env.href

/-- `extractNoteContent()` of the module: cached feed payload first, DOM
fallback second.  The in-memory cache value is an explicit input. -/
def extractNoteContent (env : Env) (dom : Dom) (cache : Option FeedApiResponse) :
    Option NoteContent :=
  match cache with
  | some feedData =>
    match parseNoteContentFromFeed env feedData with
    | some feedContent => some feedContent
    | none => extractNoteContentFromDOM env dom
  | none => extractNoteContentFromDOM env dom

/-! ## DOM media extraction -/

/-- `getCurrentNoteImgEls()`: three selector lists, first non-empty wins. -/
def getCurrentNoteImgEls (dom : Dom) : List (Option String) :=
  let els := dom.queryImgSrcs ".img-container img"
  if els.isEmpty then
    let els2 := dom.queryImgSrcs ".note-content .img-container img"
    if els2.isEmpty then dom.queryImgSrcs ".swiper-slide img" else els2
  else els

/-- The ordered video selector list of `getCurrentNoteVideoUrl`. -/
def videoSelectors : List String :=
  ["video",
   ".video-container video",
   ".note-video video",
   "[data-video] video",
   "xg-video-container video",
   ".xgplayer video"]

/-- Walk the selector list: for a found element try `currentSrc`, `src`,
then the nested `<source>` elements; otherwise (or if all empty) continue. -/
def videoUrlFromSelectors (dom : Dom) : List String → Option String
  | [] => none
  | sel :: rest =>
    match dom.queryVideo sel with
    | some el =>
      if el.currentSrc ≠ "" then some el.currentSrc
      else if el.src ≠ "" then some el.src
      else
        match el.sources.find? (fun s => s ≠ "") with
        | some s => some s
        | none => videoUrlFromSelectors dom rest
    | none => videoUrlFromSelectors dom rest

/-- `getCurrentNoteVideoUrl()` of the module. -/
def getCurrentNoteVideoUrl (dom : Dom) : Option String :=
  videoUrlFromSelectors dom videoSelectors

/-- The CDN host substring the image filter requires. -/
def cdnMarker : String := "https://sns-webpic-qc.xhscdn.com/"

/-- `extractMediaFromPageDOM()` of the module (the selector wait and settle
delay are timing only and do not affect the extracted value). -/
def extractMediaFromPageDOM (dom : Dom) : List MediaItem :=
  let imgEls := getCurrentNoteImgEls dom
  let imageUrls := imgEls.filterMap (fun src =>
    match src with
    | some s => if strContains s cdnMarker then some s else none
    | none => none)
  let uniqueImageUrls := dedupFirst imageUrls
  let imageItems := uniqueImageUrls.enum.map (fun p =>
    let url := p.2
    let originalSrc := dropSizeSuffix (stripQuery url)
    let ext :=
      if strContains url ".webp" || strContains url "webp" then "webp"
      else if strContains url ".png" then "png"
      else "jpg"
    { url := originalSrc, type := "image",
      filename := "image_" ++ natDecimalString (p.1 + 1) ++ "." ++ ext : MediaItem })
  match getCurrentNoteVideoUrl dom with
  | some videoUrl =>
    if videoUrl ∈ uniqueImageUrls then imageItems
    else imageItems ++ [{ url := videoUrl, type := "video", filename := "video_1.mp4" }]
  | none => imageItems

/-- `attemptDirectFeedFetch()` of the module: every path returns `null`
(the direct feed fetch is not implemented). -/
def attemptDirectFeedFetch (_env : Env) : Option FeedApiResponse := none

/-- `extractMediaFromPage()` of the module: cached payload, then the (no-op)
direct fetch, then the DOM fallback. -/
def extractMediaFromPage (env : Env) (dom : Dom) (cache : Option FeedApiResponse) :
    List MediaItem :=
  let feedMediaStep :=
    match cache with
    | some feedData => parseMediaFromFeed env feedData
    | none => []
  if ¬feedMediaStep.isEmpty then feedMediaStep
  else
    match attemptDirectFeedFetch env with
    | some freshFeedData =>
      let freshMedia := parseMediaFromFeed env freshFeedData
      if ¬freshMedia.isEmpty then freshMedia else extractMediaFromPageDOM dom
    | none => extractMediaFromPageDOM dom

/-! ## Source Cache (in-memory value + durable store + background handlers) -/

/-- The Source Cache state: the module-level `cachedFeedData` variable and
the durable `browser.storage.local` pair
`{ cachedFeedData, feedDataTimestamp }`. -/
structure CacheState where
  memory : Option FeedApiResponse
  storage : Option (FeedApiResponse × Nat)

/-- `setCachedFeedData(data)`: update the memory cache and persist the
payload with `Date.now()` to durable storage. -/
def setCachedFeedData (_s : CacheState) (data : FeedApiResponse) (now : Nat) : CacheState :=
  { memory := some data, storage := some (data, now) }

/-- `getCachedFeedData()`: the synchronous getter returns the in-memory
value; when it is empty it additionally fires an asynchronous warm-up load
(`loadCachedFeedDataFromStorage`, fire-and-forget), which does not affect
the returned value. -/
def getCachedFeedData (s : CacheState) : Option FeedApiResponse := s.memory

/-- `getCachedFeedDataAsync()`: await durable storage; on a hit return the
payload and refresh the memory cache, else return `null`. -/
def getCachedFeedDataAsync (s : CacheState) : Option FeedApiResponse × CacheState :=
  match s.storage with
  | some (d, _) => (some d, { s with memory := some d })
  | none => (none, s)

/-- The background `clearFeedCache` handler: remove
`["cachedFeedData", "feedDataTimestamp"]` from durable storage (the
in-memory copies held by page scripts are not touched by it). -/
def clearFeedCache (s : CacheState) : CacheState := { s with storage := none }

/-! ## Comments: API shapes, `parseApiComments`, `fetchCommentsDirectly`,
`extractCommentsFromDOM`, `extractComments` -/

/-- `parseApiComments(apiResponse)` of the module. -/
def parseApiComments (apiResponse : ApiCommentResponse) : List CommentItem :=
  match apiResponse.data.comments with
  | none => []
  | some comments =>
    comments.map (fun comment =>
      { id := comment.id,
        author := comment.user_info.nickname,
        content := comment.content,
        createTime := comment.create_time,
        likeCount := jsParseIntOr0 comment.like_count,
        ipLocation := comment.ip_location,
        replies := (comment.sub_comments.getD []).map (fun subComment =>
          { author := subComment.user_info.nickname,
            content := subComment.content,
            createTime := subComment.create_time,
            likeCount := jsParseIntOr0 subComment.like_count }) })

/-- `fetchCommentsDirectly(noteId)` of the module: read `xsec_token` from the
page's query string; `if (!xsecToken)` skips the call (both a missing token
and an empty-string token are falsy); a failed request / non-2xx / parse
error is caught and yields `[]`.  `_noteId` only feeds the request URL. -/
def fetchCommentsDirectly (env : Env) (_noteId : String) : List CommentItem :=
  match lookupParam env.searchParams "xsec_token" with
  | none => []
  | some xsecToken =>
    if xsecToken = "" then []
    else
      match env.commentApi with
      | none => []
      | some data => parseApiComments data

/-- The comment selector list of `extractCommentsFromDOM`. -/
def commentSelectors : List String :=
  [".comment-item",
   ".comment",
   "[class*=\"comment\"]:not([class*=\"count\"])"]

/-- The body of the per-selector `forEach` of `extractCommentsFromDOM`,
for one element `p.2` at NodeList position `p.1`. -/
def domCommentOfEl (env : Env) (p : Nat × DomCommentEl) : Option CommentItem :=
  let content := jsTrim p.2.text
  if content.length > 5 then
    some
      { id := "dom_" ++ natDecimalString p.1,
        author :=
          match p.2.authorText with
          | some a => if jsTrim a = "" then "匿名用户" else jsTrim a
          | none => "匿名用户",
        content := content,
        createTime := env.now,
        likeCount := 0,
        ipLocation := "",
        replies := [] }
  else none

/-- One selector's `forEach` of `extractCommentsFromDOM`: `index` is the
element's position in that selector's `NodeList`. -/
def domCommentsOfSelector (env : Env) (els : List DomCommentEl) : List CommentItem :=
  els.enum.filterMap (domCommentOfEl env)

/-- `extractCommentsFromDOM()` of the module: the selectors are processed in
order and each appends its matches to the shared `comments` array. -/
def extractCommentsFromDOM (env : Env) (dom : Dom) : List CommentItem :=
  commentSelectors.foldl
    (fun comments sel => comments ++ domCommentsOfSelector env (dom.queryComments sel)) []

/-- `extractComments()` of the module: no note id → `[]`;
else the direct API call, accepted when non-empty, else the DOM fallback. -/
def extractComments (env : Env) (dom : Dom) : List CommentItem :=
  match extractNoteId env.pathname with
  | none => []
  | some noteId =>
    let apiComments := fetchCommentsDirectly env noteId
    if apiComments.length > 0 then apiComments
    else extractCommentsFromDOM env dom

/-- `extractExtendedNoteContent()` of the module.  `wordCount` counts the
non-whitespace characters (`content.replace(/\s+/g, "").length`),
`charCount` all characters. -/
def extractExtendedNoteContent (env : Env) (dom : Dom)
    (cache : Option FeedApiResponse) : Option ExtendedNoteContent :=
  match extractNoteContent env dom cache with
  | none => none
  | some baseContent =>
    some
      { title := baseContent.title,
        author := baseContent.author,
        content := baseContent.content,
        url := baseContent.url,
        wordCount := (baseContent.content.toList.filter (fun c => ¬c.isWhitespace)).length,
        charCount := baseContent.content.length,
        comments := extractComments env dom,
        extractedAt := env.nowISO }

/-! ## Packaging: `MediaDownloader.downloadAsZip` -/

/-- `zip.file(name, blob)`: adding an entry under an existing name replaces
its content and leaves the set of entry names unchanged (names only are
modelled; the blobs do not affect any claimed property). -/
def zipAdd (entries : List String) (name : String) : List String :=
  if name ∈ entries then entries else entries ++ [name]

/-- The media loop of `downloadAsZip`: fetch each item (`fetchOk` models
whether the network fetch succeeds for a URL); on success add the blob to
the archive, bump `current` and report progress; on failure log and
continue with the other files. -/
def zipLoop (fetchOk : String → Bool) (total : Nat) :
    List MediaItem → Nat → List String → List DownloadProgress →
    Nat × List String × List DownloadProgress
  | [], current, entries, calls => (current, entries, calls)
  | media :: rest, current, entries, calls =>
    if fetchOk media.url then
      zipLoop fetchOk total rest (current + 1) (zipAdd entries media.filename)
        (calls ++ [⟨current + 1, total, "downloading"⟩])
    else zipLoop fetchOk total rest current entries calls

/-- Result of `downloadAsZip`: the returned boolean, the archive's entry
names, and the sequence of progress-callback invocations. -/
structure ZipResult where
  ok : Bool
  entries : List String
  calls : List DownloadProgress
deriving DecidableEq

/-- The name of the textual-content entry `downloadAsZip` adds. -/
def contentEntryName (pathname : String) (hasExtendedContent : Bool) : String :=
  let noteId := (extractNoteId pathname).getD "unknown"
  if hasExtendedContent then "xiaohongshu_" ++ noteId ++ "_complete_content.txt"
  else "xiaohongshu_" ++ noteId ++ "_content.txt"

/-- `MediaDownloader.downloadAsZip(mediaItems, zipFilename, extendedContent?,
noteContent?)`.  `finalizeOk` models whether `zip.generateAsync` (the only
fallible step outside the per-item try/catch blocks) succeeds; on its
failure the catch reports `{current: 0, total: 0, status: "error"}` and the
method returns `false`.  The serialized report text itself is deterministic
string building and cannot throw; only the entry it creates is modelled. -/
def downloadAsZip (fetchOk : String → Bool) (pathname : String)
    (mediaItems : List MediaItem) (extendedContent : Option ExtendedNoteContent)
    (noteContent : Option NoteContent) (finalizeOk : Bool) : ZipResult :=
  let hasExtendedContent := extendedContent.isSome
  let hasContent := hasExtendedContent || noteContent.isSome
  let total := mediaItems.length + (if hasContent then 1 else 0)
  let afterLoop := zipLoop fetchOk total mediaItems 0 [] [⟨0, total, "downloading"⟩]
  let afterContent :=
    if hasContent then
      (afterLoop.1 + 1,
       zipAdd afterLoop.2.1 (contentEntryName pathname hasExtendedContent),
       afterLoop.2.2 ++ [⟨afterLoop.1 + 1, total, "downloading"⟩])
    else afterLoop
  if finalizeOk then
    ⟨true, afterContent.2.1, afterContent.2.2 ++ [⟨total, total, "complete"⟩]⟩
  else ⟨false, afterContent.2.1, afterContent.2.2 ++ [⟨0, 0, "error"⟩]⟩

/-! ## Helper lemmas: stream selection and sorting -/

theorem head_insertByAreaDesc (x : StreamEntry) (l : List StreamEntry) :
    (insertByAreaDesc x l).head? =
      some (match l with
            | [] => x
            | y :: _ => if area y ≤ area x then x else y) := by
  cases l with
  | nil => rfl
  | cons y t => by_cases h : area y ≤ area x <;> simp [insertByAreaDesc, h]

theorem selectStream_cons (x : StreamEntry) (xs : List StreamEntry) :
    selectStream (x :: xs) =
      some (match sortByAreaDesc xs with
            | [] => x
            | y :: _ => if area y ≤ area x then x else y) := by
  simp only [selectStream, sortByAreaDesc]
  rw [head_insertByAreaDesc]

/-- `sorted[0]` is the *first* entry of maximal area: it dominates every
entry, and every strictly earlier entry has strictly smaller area. -/
theorem selectStream_firstMax : ∀ (l : List StreamEntry), l ≠ [] →
    ∃ (i : Nat) (h : i < l.length), selectStream l = some (l.get ⟨i, h⟩) ∧
      (∀ j (hj : j < l.length), area (l.get ⟨j, hj⟩) ≤ area (l.get ⟨i, h⟩)) ∧
      (∀ j (hj : j < l.length), j < i → area (l.get ⟨j, hj⟩) < area (l.get ⟨i, h⟩)) := by
  intro l
  induction l with
  | nil => intro h; exact absurd rfl h
  | cons x xs ih =>
    intro _
    cases xs with
    | nil =>
      refine ⟨0, by simp, rfl, ?_, ?_⟩
      · intro j hj
        have hj0 : j = 0 := by simpa using hj
        subst hj0
        exact le_refl _
      · intro j hj hlt
        omega
    | cons y ys =>
      obtain ⟨i, hi, hsel, hmax, hfirst⟩ := ih (by simp)
      cases hs : sortByAreaDesc (y :: ys) with
      | nil =>
        unfold selectStream at hsel
        rw [hs] at hsel
        simp at hsel
      | cons b t =>
        have hb : b = (y :: ys).get ⟨i, hi⟩ := by
          unfold selectStream at hsel
          rw [hs] at hsel
          simpa using hsel
        subst hb
        by_cases hba : area ((y :: ys).get ⟨i, hi⟩) ≤ area x
        · refine ⟨0, by simp, ?_, ?_, ?_⟩
          · rw [selectStream_cons, hs]
            simp only [Option.some.injEq]
            rw [if_pos hba]
            simp
          · intro j hj
            cases j with
            | zero => simp
            | succ j =>
              have hj' : j < (y :: ys).length := by simpa using hj
              calc area ((x :: y :: ys).get ⟨j + 1, hj⟩)
                  = area ((y :: ys).get ⟨j, hj'⟩) := by simp
                _ ≤ area ((y :: ys).get ⟨i, hi⟩) := hmax j hj'
                _ ≤ area x := hba
          · intro j hj hlt
            omega
        · have hxb : area x < area ((y :: ys).get ⟨i, hi⟩) := by omega
          refine ⟨i + 1, by simpa using hi, ?_, ?_, ?_⟩
          · rw [selectStream_cons, hs]
            simp only [Option.some.injEq]
            rw [if_neg hba]
            simp
          · intro j hj
            cases j with
            | zero => simpa using le_of_lt hxb
            | succ j =>
              have hj' : j < (y :: ys).length := by simpa using hj
              have := hmax j hj'
              simpa using this
          · intro j hj hlt
            cases j with
            | zero => simpa using hxb
            | succ j =>
              have hj' : j < (y :: ys).length := by simpa using hj
              have := hfirst j hj' (by omega)
              simpa using this

theorem insertByAreaDesc_perm (x : StreamEntry) (l : List StreamEntry) :
    (insertByAreaDesc x l).Perm (x :: l) := by
  induction l with
  | nil => exact List.Perm.refl _
  | cons y t ih =>
    by_cases h : area y ≤ area x
    · simp [insertByAreaDesc, h]
    · simp only [insertByAreaDesc, h, if_false]
      exact (ih.cons y).trans (List.Perm.swap x y t)

theorem sortByAreaDesc_perm (l : List StreamEntry) : (sortByAreaDesc l).Perm l := by
  induction l with
  | nil => exact List.Perm.refl _
  | cons x xs ih => exact (insertByAreaDesc_perm x (sortByAreaDesc xs)).trans (ih.cons x)

/-- **C3.** For every video note whose selected codec-family stream list
contains several entries tied for the largest `width*height` area, the media
normalizer's selection (`sorted[0]` of the stable descending sort, i.e.
`selectStream`) deterministically picks the entry that appears first in the
list's original order: the selected entry dominates all entries by area and
every entry strictly before it has strictly smaller area. -/
theorem c3_tie_break_first_in_order (l : List StreamEntry) (hne : l ≠ []) :
    ∃ (i : Nat) (h : i < l.length), selectStream l = some (l.get ⟨i, h⟩) ∧
      (∀ j (hj : j < l.length), area (l.get ⟨j, hj⟩) ≤ area (l.get ⟨i, h⟩)) ∧
      (∀ j (hj : j < l.length), j < i → area (l.get ⟨j, hj⟩) < area (l.get ⟨i, h⟩)) :=
  selectStream_firstMax l hne

/-- Two tied maximal-area entries (areas 6, 6 after a smaller first entry):
`c3_tie_break_first_in_order` applies and certifies the selection. -/
def tieA : StreamEntry := ⟨"https://v.example/a?sign=1", 1, 2, "HD", "mp4", []⟩

/-- Second sample entry, area 6, first of the tied maxima. -/
def tieB : StreamEntry := ⟨"https://v.example/b?sign=2", 2, 3, "HD", "mp4", []⟩

/-- Third sample entry, also area 6, tied with `tieB` but later in order. -/
def tieC : StreamEntry := ⟨"https://v.example/c?sign=3", 3, 2, "HD", "mp4", []⟩

/-- Witness for C3 at the concrete tied list `[tieA, tieB, tieC]`. -/
theorem c3_tie_break_first_in_order_witness :
    [tieA, tieB, tieC] ≠ [] ∧
      (∃ (i : Nat) (h : i < [tieA, tieB, tieC].length),
        selectStream [tieA, tieB, tieC] = some ([tieA, tieB, tieC].get ⟨i, h⟩) ∧
        (∀ j (hj : j < [tieA, tieB, tieC].length),
          area ([tieA, tieB, tieC].get ⟨j, hj⟩) ≤ area ([tieA, tieB, tieC].get ⟨i, h⟩)) ∧
        (∀ j (hj : j < [tieA, tieB, tieC].length), j < i →
          area ([tieA, tieB, tieC].get ⟨j, hj⟩) < area ([tieA, tieB, tieC].get ⟨i, h⟩))) :=
  ⟨by decide, c3_tie_break_first_in_order [tieA, tieB, tieC] (by decide)⟩

/-! ## Helper lemmas: the media normalizer's video branch -/

theorem getLast?_append_singleton {α : Type} (l : List α) (a : α) :
    (l ++ [a]).getLast? = some a := by
  induction l with
  | nil => rfl
  | cons x xs ih =>
    rw [List.cons_append, List.getLast?_cons]
    cases hxs : xs ++ [a] with
    | nil => exact absurd hxs (by simp)
    | cons z zs =>
      rw [hxs] at ih
      simpa [List.getLast?_cons] using ih

theorem mem_imageMediaOf_type (imgs : List ImageEntry) :
    ∀ m ∈ imageMediaOf imgs, m.type = "image" := by
  intro m hm
  unfold imageMediaOf at hm
  obtain ⟨p, _, rfl⟩ := List.mem_map.mp hm
  rfl

theorem parseMedia_video_branch (env : Env) (feedData : FeedApiResponse)
    (nid : String) (items : List FeedItem) (noteItem : FeedItem) (v : NoteVideo)
    (hid : extractNoteId env.pathname = some nid)
    (hitems : feedData.data.items = some items)
    (hfind : items.find? (fun it => it.note_card.note_id == nid) = some noteItem)
    (htype : noteItem.note_card.type = "video")
    (hvideo : noteItem.note_card.video = some v) :
    parseMediaFromFeed env feedData =
      (match noteItem.note_card.image_list with
       | some imgs => imageMediaOf imgs
       | none => []) ++ videoMediaOf v.media.stream := by
  unfold parseMediaFromFeed parseMediaFromFeedFull
  simp only [hid, hitems, hfind]
  simp [htype, hvideo]

theorem videoMediaOf_h264 (st : VideoStream) (hne : st.h264 ≠ []) (e : StreamEntry)
    (hsel : selectStream st.h264 = some e) :
    videoMediaOf st =
      if e.master_url = "" then []
      else [{ url := e.master_url, type := "video", filename := "video_1.mp4" }] := by
  have hemp : st.h264.isEmpty = false := by
    cases h : st.h264 with
    | nil => exact absurd h hne
    | cons a t => rfl
  unfold videoMediaOf
  rw [hemp]
  simp [hsel]

/-! ## Shared sample data for witnesses and counterexamples -/

/-- Sample note author. -/
def sampleUser : NoteUser := ⟨"作者甲", "user1", "https://avatar.example/1"⟩

/-- Sample interaction counters. -/
def sampleInteract : InteractInfo := ⟨"10", "2", "3", "1"⟩

/-- A plain (non-video) feed note card for note id `abc123`. -/
def baseCard : FeedNoteCard :=
  ⟨"标题", "正文内容", "abc123", "normal", sampleUser, none, none, none, sampleInteract, 0, none⟩

/-- A page environment on `/explore/abc123` with no query string, no comment
API response and a fixed clock. -/
def baseEnv : Env :=
  ⟨"/explore/abc123", "https://www.xiaohongshu.com/explore/abc123", [], none, 1000,
   "2026-01-01T00:00:00.000Z"⟩

/-! ## C1: h264 preferred, largest area, URL byte-for-byte -/

/-- Streams for the C1 counterexample: both families non-empty, but the
(sole, hence maximal) h264 entry has an empty `master_url`. -/
def c1Stream : VideoStream :=
  ⟨[⟨"", 100, 100, "HD", "mp4", []⟩],
   [⟨"https://v.example/h265?sign=x", 10, 10, "SD", "mp4", []⟩]⟩

/-- Video note card carrying `c1Stream`. -/
def c1Card : FeedNoteCard := { baseCard with type := "video", video := some ⟨⟨c1Stream⟩⟩ }

/-- Feed payload whose matched item is the video note `c1Card`. -/
def c1Feed : FeedApiResponse := ⟨0, true, "", ⟨some [⟨"item1", "note", c1Card⟩], 0, ""⟩⟩

/-- **C1 counterexample.** A cached payload whose matched item is a video
note with both stream lists non-empty for which the normalizer emits *no*
video `MediaItem` at all: the selected h264 entry's `master_url` is the
empty string and `if (bestVideoUrl)` drops it.  The claim, as stated,
demands a video item whose url equals that entry's `master_url`. -/
theorem c1_counterexample :
    (c1Card.type = "video" ∧ c1Card.video = some ⟨⟨c1Stream⟩⟩ ∧
      c1Stream.h264 ≠ [] ∧ c1Stream.h265 ≠ []) ∧
    parseMediaFromFeed baseEnv c1Feed = [] := by decide

/-- **C1 (amended).** For every cached feed payload whose item matching the
resolved identifier is a video note with both the h264 and h265 stream
lists non-empty, the normalizer selects an h264 entry of maximal
`width*height` area (never an h265 entry) and, *provided that entry's*
`master_url` *is non-empty*, emits as last media item a video `MediaItem`
whose url equals that `master_url` byte-for-byte (query parameters
untouched); when the selected `master_url` is the empty string, no video
item is emitted and the result is image items only. -/
theorem c1_h264_preferred_url_preserved (env : Env) (feedData : FeedApiResponse)
    (nid : String) (items : List FeedItem) (noteItem : FeedItem) (v : NoteVideo)
    (hid : extractNoteId env.pathname = some nid)
    (hitems : feedData.data.items = some items)
    (hfind : items.find? (fun it => it.note_card.note_id == nid) = some noteItem)
    (htype : noteItem.note_card.type = "video")
    (hvideo : noteItem.note_card.video = some v)
    (h264ne : v.media.stream.h264 ≠ [])
    (_h265ne : v.media.stream.h265 ≠ []) :
    ∃ e, e ∈ v.media.stream.h264 ∧
      (∀ e' ∈ v.media.stream.h264, area e' ≤ area e) ∧
      (e.master_url ≠ "" →
        (parseMediaFromFeed env feedData).getLast? =
          some { url := e.master_url, type := "video", filename := "video_1.mp4" }) ∧
      (e.master_url = "" →
        ∀ m ∈ parseMediaFromFeed env feedData, m.type = "image") := by
  obtain ⟨i, hlt, hsel, hmax, _⟩ := selectStream_firstMax v.media.stream.h264 h264ne
  refine ⟨v.media.stream.h264.get ⟨i, hlt⟩, List.get_mem _ _ _, ?_, ?_, ?_⟩
  · intro e' he'
    obtain ⟨j, hj⟩ := List.mem_iff_get.mp he'
    subst hj
    exact hmax j.1 j.2
  · intro hurl
    rw [parseMedia_video_branch env feedData nid items noteItem v hid hitems hfind htype hvideo,
      videoMediaOf_h264 v.media.stream h264ne _ hsel, if_neg hurl]
    exact getLast?_append_singleton _ _
  · intro hurl m hm
    rw [parseMedia_video_branch env feedData nid items noteItem v hid hitems hfind htype hvideo,
      videoMediaOf_h264 v.media.stream h264ne _ hsel, if_pos hurl, List.append_nil] at hm
    cases hil : noteItem.note_card.image_list with
    | none => rw [hil] at hm; simp at hm
    | some imgs =>
      rw [hil] at hm
      exact mem_imageMediaOf_type imgs m hm

/-- Streams for the C1 witness: two h264 entries (the later one larger) and
one h265 entry; all URLs carry signing query parameters. -/
def c1wStream : VideoStream :=
  ⟨[⟨"https://v.example/low.mp4?sign=a&t=1", 720, 1280, "HD", "mp4", []⟩,
    ⟨"https://v.example/high.mp4?sign=b&t=2", 1080, 1920, "UHD", "mp4", []⟩],
   [⟨"https://v.example/h265.mp4?sign=c&t=3", 1080, 1920, "UHD", "mp4", []⟩]⟩

/-- Video note card carrying `c1wStream`. -/
def c1wCard : FeedNoteCard := { baseCard with type := "video", video := some ⟨⟨c1wStream⟩⟩ }

/-- Feed payload whose matched item is the video note `c1wCard`. -/
def c1wFeed : FeedApiResponse := ⟨0, true, "", ⟨some [⟨"item1", "note", c1wCard⟩], 0, ""⟩⟩

/-- Witness for the amended C1 at a concrete payload. -/
theorem c1_h264_preferred_url_preserved_witness :
    (extractNoteId baseEnv.pathname = some "abc123" ∧
      c1wFeed.data.items = some [⟨"item1", "note", c1wCard⟩] ∧
      [(⟨"item1", "note", c1wCard⟩ : FeedItem)].find?
        (fun it => it.note_card.note_id == "abc123") = some ⟨"item1", "note", c1wCard⟩ ∧
      c1wCard.type = "video" ∧ c1wCard.video = some ⟨⟨c1wStream⟩⟩ ∧
      c1wStream.h264 ≠ [] ∧ c1wStream.h265 ≠ []) ∧
    (∃ e, e ∈ c1wStream.h264 ∧
      (∀ e' ∈ c1wStream.h264, area e' ≤ area e) ∧
      (e.master_url ≠ "" →
        (parseMediaFromFeed baseEnv c1wFeed).getLast? =
          some { url := e.master_url, type := "video", filename := "video_1.mp4" }) ∧
      (e.master_url = "" →
        ∀ m ∈ parseMediaFromFeed baseEnv c1wFeed, m.type = "image")) :=
  ⟨by decide,
   c1_h264_preferred_url_preserved baseEnv c1wFeed "abc123"
     [⟨"item1", "note", c1wCard⟩] ⟨"item1", "note", c1wCard⟩ ⟨⟨c1wStream⟩⟩
     (by decide) (by decide) (by decide) (by decide) (by decide) (by decide) (by decide)⟩

/-! ## C2: one image item per image_list entry -/

theorem mem_videoMediaOf_type (st : VideoStream) :
    ∀ m ∈ videoMediaOf st, m.type = "video" := by
  intro m hm
  unfold videoMediaOf at hm
  repeat' split at hm
  all_goals simp_all

theorem filter_imageMediaOf (imgs : List ImageEntry) :
    (imageMediaOf imgs).filter (fun m => m.type == "image") = imageMediaOf imgs := by
  apply List.filter_eq_self.mpr
  intro m hm
  simp [mem_imageMediaOf_type imgs m hm]

theorem filter_videoMediaOf (st : VideoStream) :
    (videoMediaOf st).filter (fun m => m.type == "image") = [] := by
  rw [List.filter_eq_nil_iff]
  intro m hm
  simp [mem_videoMediaOf_type st m hm]

theorem parseMedia_filter_images (env : Env) (feedData : FeedApiResponse)
    (nid : String) (items : List FeedItem) (noteItem : FeedItem) (imgs : List ImageEntry)
    (hid : extractNoteId env.pathname = some nid)
    (hitems : feedData.data.items = some items)
    (hfind : items.find? (fun it => it.note_card.note_id == nid) = some noteItem)
    (himg : noteItem.note_card.image_list = some imgs) :
    (parseMediaFromFeed env feedData).filter (fun m => m.type == "image") =
      imageMediaOf imgs := by
  unfold parseMediaFromFeed parseMediaFromFeedFull
  simp only [hid, hitems, hfind]
  by_cases htype : noteItem.note_card.type = "video"
  · cases hv : noteItem.note_card.video with
    | none => simp [htype, hv, himg, filter_imageMediaOf]
    | some v =>
      simp [htype, hv, himg, List.filter_append, filter_imageMediaOf, filter_videoMediaOf]
  · simp [htype, himg, filter_imageMediaOf]

theorem imageMediaOf_get (imgs : List ImageEntry) (i : Nat)
    (h1 : i < (imageMediaOf imgs).length) (h2 : i < imgs.length) :
    (imageMediaOf imgs).get ⟨i, h1⟩ =
      (let img := imgs.get ⟨i, h2⟩
       let resolvedUrl :=
         match img.info_list.find? (fun info => info.image_scene == "WB_DFT") with
         | some info => if info.url = "" then img.url_default else info.url
         | none => img.url_default
       { url := resolvedUrl, type := "image",
         filename := "image_" ++ natDecimalString (i + 1) ++ "." ++
           (if strContains resolvedUrl ".jpg" || strContains resolvedUrl ".jpeg" then "jpg"
            else if strContains resolvedUrl ".png" then "png"
            else "webp") }) := by
  unfold imageMediaOf
  simp [List.get_eq_getElem, List.getElem_enum]

/-- Image entry whose `WB_DFT` info entry exists but carries an empty URL. -/
def c2Img : ImageEntry :=
  ⟨"https://img.example/default.jpg", "https://img.example/pre.jpg", 100, 200,
   [⟨"WB_DFT", ""⟩]⟩

/-- Note card with the single image `c2Img`. -/
def c2Card : FeedNoteCard := { baseCard with image_list := some [c2Img] }

/-- Feed payload whose matched item carries `c2Card`. -/
def c2Feed : FeedApiResponse := ⟨0, true, "", ⟨some [⟨"item1", "note", c2Card⟩], 0, ""⟩⟩

/-- **C2 counterexample.** The claim says the image URL is the `info_list`
entry tagged `WB_DFT` *when present*.  Here that entry is present with URL
`""`, yet the normalizer emits `url_default` (the JS `||` also falls back
on an empty string), so the emitted URL differs from the claim's. -/
theorem c2_counterexample :
    c2Img.info_list.find? (fun info => info.image_scene == "WB_DFT") =
      some ⟨"WB_DFT", ""⟩ ∧
    (parseMediaFromFeed baseEnv c2Feed).map (fun m => m.url) =
      ["https://img.example/default.jpg"] ∧
    "https://img.example/default.jpg" ≠ "" := by decide

/-- **C2 (amended).** For every cached feed payload containing an item whose
`note_card.note_id` equals the resolved identifier and whose `image_list`
is present, the media normalizer returns exactly one image `MediaItem` per
`image_list` entry, in source order, with filenames `image_1..image_N`, url
equal to the `info_list` entry tagged `image_scene "WB_DFT"` *when that
entry is present with a non-empty url* (else `url_default`), and extension
`jpg` when that url contains `.jpg` or `.jpeg`, `png` when it contains
`.png`, else `webp`. -/
theorem c2_one_image_item_per_entry (env : Env) (feedData : FeedApiResponse)
    (nid : String) (items : List FeedItem) (noteItem : FeedItem) (imgs : List ImageEntry)
    (hid : extractNoteId env.pathname = some nid)
    (hitems : feedData.data.items = some items)
    (hfind : items.find? (fun it => it.note_card.note_id == nid) = some noteItem)
    (himg : noteItem.note_card.image_list = some imgs) :
    ((parseMediaFromFeed env feedData).filter (fun m => m.type == "image")).length =
      imgs.length ∧
    ∀ i (hi : i < imgs.length)
      (hi2 : i < ((parseMediaFromFeed env feedData).filter (fun m => m.type == "image")).length),
      ((parseMediaFromFeed env feedData).filter (fun m => m.type == "image")).get ⟨i, hi2⟩ =
        (let img := imgs.get ⟨i, hi⟩
         let resolvedUrl :=
           match img.info_list.find? (fun info => info.image_scene == "WB_DFT") with
           | some info => if info.url = "" then img.url_default else info.url
           | none => img.url_default
         { url := resolvedUrl, type := "image",
           filename := "image_" ++ natDecimalString (i + 1) ++ "." ++
             (if strContains resolvedUrl ".jpg" || strContains resolvedUrl ".jpeg" then "jpg"
              else if strContains resolvedUrl ".png" then "png"
              else "webp") }) := by
  have heq := parseMedia_filter_images env feedData nid items noteItem imgs hid hitems hfind himg
  constructor
  · rw [heq]
    unfold imageMediaOf
    simp
  · intro i hi hi2
    have hget := List.get_of_eq heq ⟨i, hi2⟩
    rw [hget, imageMediaOf_get imgs i (heq ▸ hi2) hi]

/-- First C2 witness image: `WB_DFT` present with a non-empty `.png` URL. -/
def c2wImgA : ImageEntry :=
  ⟨"https://img.example/a-default.webp", "https://img.example/a-pre.webp", 100, 200,
   [⟨"WB_PRV", "https://img.example/a-prv.webp"⟩, ⟨"WB_DFT", "https://img.example/a-dft.png"⟩]⟩

/-- Second C2 witness image: no `WB_DFT` entry, `.jpg` default URL. -/
def c2wImgB : ImageEntry :=
  ⟨"https://img.example/b-default.jpg", "https://img.example/b-pre.jpg", 100, 200, []⟩

/-- Note card with the two witness images. -/
def c2wCard : FeedNoteCard := { baseCard with image_list := some [c2wImgA, c2wImgB] }

/-- Feed payload whose matched item carries `c2wCard`. -/
def c2wFeed : FeedApiResponse := ⟨0, true, "", ⟨some [⟨"item1", "note", c2wCard⟩], 0, ""⟩⟩

/-- Witness for the amended C2 at a concrete two-image payload. -/
theorem c2_one_image_item_per_entry_witness :
    (extractNoteId baseEnv.pathname = some "abc123" ∧
      c2wFeed.data.items = some [⟨"item1", "note", c2wCard⟩] ∧
      [(⟨"item1", "note", c2wCard⟩ : FeedItem)].find?
        (fun it => it.note_card.note_id == "abc123") = some ⟨"item1", "note", c2wCard⟩ ∧
      c2wCard.image_list = some [c2wImgA, c2wImgB]) ∧
    (((parseMediaFromFeed baseEnv c2wFeed).filter (fun m => m.type == "image")).length =
        [c2wImgA, c2wImgB].length ∧
      ∀ i (hi : i < [c2wImgA, c2wImgB].length)
        (hi2 : i < ((parseMediaFromFeed baseEnv c2wFeed).filter
          (fun m => m.type == "image")).length),
        ((parseMediaFromFeed baseEnv c2wFeed).filter
          (fun m => m.type == "image")).get ⟨i, hi2⟩ =
          (let img := [c2wImgA, c2wImgB].get ⟨i, hi⟩
           let resolvedUrl :=
             match img.info_list.find? (fun info => info.image_scene == "WB_DFT") with
             | some info => if info.url = "" then img.url_default else info.url
             | none => img.url_default
           { url := resolvedUrl, type := "image",
             filename := "image_" ++ natDecimalString (i + 1) ++ "." ++
               (if strContains resolvedUrl ".jpg" || strContains resolvedUrl ".jpeg" then "jpg"
                else if strContains resolvedUrl ".png" then "png"
                else "webp") })) :=
  ⟨by decide,
   c2_one_image_item_per_entry baseEnv c2wFeed "abc123"
     [⟨"item1", "note", c2wCard⟩] ⟨"item1", "note", c2wCard⟩ [c2wImgA, c2wImgB]
     (by decide) (by decide) (by decide) (by decide)⟩

/-! ## C4: extracted note content never has empty-string fields -/

theorem ite_default_ne (s d : String) (hd : d ≠ "") : (if s = "" then d else s) ≠ "" := by
  by_cases h : s = "" <;> simp [h, hd]

theorem parseNoteContentFromFeed_fields (env : Env) (feedData : FeedApiResponse)
    (c : NoteContent) (hc : parseNoteContentFromFeed env feedData = some c) :
    c.title ≠ "" ∧ c.author ≠ "" ∧ c.content ≠ "" ∧ c.url = env.href := by
  unfold parseNoteContentFromFeed at hc
  repeat' split at hc
  all_goals first
    | exact Option.noConfusion hc
    | (dsimp only at hc
       rw [Option.some.injEq] at hc
       subst hc
       refine ⟨?_, ?_, ?_, rfl⟩ <;> (apply ite_default_ne; decide))

theorem mkNoteContent_fields (title author content href : String) (c : NoteContent)
    (hc : mkNoteContent title author content href = some c) :
    c.title ≠ "" ∧ c.author ≠ "" ∧ c.content ≠ "" ∧ c.url = href := by
  unfold mkNoteContent at hc
  split at hc
  · exact Option.noConfusion hc
  · rw [Option.some.injEq] at hc
    subst hc
    refine ⟨?_, ?_, ?_, rfl⟩ <;> (apply ite_default_ne; decide)

theorem extractNoteContentFromDOM_fields (env : Env) (dom : Dom) (c : NoteContent)
    (hc : extractNoteContentFromDOM env dom = some c) :
    c.title ≠ "" ∧ c.author ≠ "" ∧ c.content ≠ "" ∧ c.url = env.href :=
  mkNoteContent_fields _ _ _ _ c hc

/-- **C4.** Whenever `extractNoteContent` returns a non-null `NoteContent`
(from either the cached-payload normalizer or the DOM fallback), none of
its fields `title`, `author`, `content`, `url` is the empty string (given
that the page URL — which a browser reports as a non-empty serialization —
is non-empty): each textual field is real extracted text or its documented
placeholder. -/
theorem c4_no_empty_fields (env : Env) (dom : Dom) (cache : Option FeedApiResponse)
    (hhref : env.href ≠ "") (c : NoteContent)
    (hc : extractNoteContent env dom cache = some c) :
    c.title ≠ "" ∧ c.author ≠ "" ∧ c.content ≠ "" ∧ c.url ≠ "" := by
  unfold extractNoteContent at hc
  cases cache with
  | none =>
    obtain ⟨h1, h2, h3, h4⟩ := extractNoteContentFromDOM_fields env dom c hc
    exact ⟨h1, h2, h3, h4 ▸ hhref⟩
  | some feedData =>
    dsimp only at hc
    cases hp : parseNoteContentFromFeed env feedData with
    | some feedContent =>
      rw [hp] at hc
      dsimp only at hc
      rw [Option.some.injEq] at hc
      subst hc
      obtain ⟨h1, h2, h3, h4⟩ := parseNoteContentFromFeed_fields env feedData feedContent hp
      exact ⟨h1, h2, h3, h4 ▸ hhref⟩
    | none =>
      rw [hp] at hc
      dsimp only at hc
      obtain ⟨h1, h2, h3, h4⟩ := extractNoteContentFromDOM_fields env dom c hc
      exact ⟨h1, h2, h3, h4 ▸ hhref⟩

/-- A document with a plain title, no matching selectors, empty body. -/
def emptyDom : Dom :=
  ⟨"旅行日记", fun _ => none, "", fun _ => [], fun _ => none, fun _ => []⟩

/-- Witness for C4: the DOM fallback on `emptyDom` returns placeholders for
author and content and the claim's conclusion holds. -/
theorem c4_no_empty_fields_witness :
    (baseEnv.href ≠ "" ∧
      extractNoteContent baseEnv emptyDom none =
        some ⟨"旅行日记", "未知作者", "无内容", "https://www.xiaohongshu.com/explore/abc123"⟩) ∧
    ((⟨"旅行日记", "未知作者", "无内容",
        "https://www.xiaohongshu.com/explore/abc123"⟩ : NoteContent).title ≠ "" ∧
      (⟨"旅行日记", "未知作者", "无内容",
        "https://www.xiaohongshu.com/explore/abc123"⟩ : NoteContent).author ≠ "" ∧
      (⟨"旅行日记", "未知作者", "无内容",
        "https://www.xiaohongshu.com/explore/abc123"⟩ : NoteContent).content ≠ "" ∧
      (⟨"旅行日记", "未知作者", "无内容",
        "https://www.xiaohongshu.com/explore/abc123"⟩ : NoteContent).url ≠ "") :=
  ⟨⟨by decide, by decide⟩,
   c4_no_empty_fields baseEnv emptyDom none (by decide) _ (by decide)⟩

/-! ## C5: extractMedia never throws; bad inputs yield [] -/

theorem extractMediaFromPageDOM_empty (dom : Dom)
    (himgs : ∀ s, dom.queryImgSrcs s = []) (hvid : ∀ s, dom.queryVideo s = none) :
    extractMediaFromPageDOM dom = [] := by
  have h1 : getCurrentNoteImgEls dom = [] := by simp [getCurrentNoteImgEls, himgs]
  have h2 : getCurrentNoteVideoUrl dom = none := by
    unfold getCurrentNoteVideoUrl
    have hall : ∀ ss, videoUrlFromSelectors dom ss = none := by
      intro ss
      induction ss with
      | nil => rfl
      | cons s rest ih => simp [videoUrlFromSelectors, hvid, ih]
    exact hall _
  unfold extractMediaFromPageDOM
  rw [h1, h2]
  rfl

/-- **C5.** The media extraction operation is a total function (the
embedding is a plain function, mirroring that every fallible step of the
source is wrapped in try/catch): feeding it a cached payload whose item
list is missing/malformed — or no cached payload at all — together with a
DOM in which no media selector matches anything yields `[]`, not an
exception. -/
theorem c5_extract_media_empty_on_bad_input (env : Env) (dom : Dom)
    (cache : Option FeedApiResponse)
    (hcache : cache = none ∨ ∃ feedData, cache = some feedData ∧ feedData.data.items = none)
    (himgs : ∀ s, dom.queryImgSrcs s = []) (hvid : ∀ s, dom.queryVideo s = none) :
    extractMediaFromPage env dom cache = [] := by
  have hdom := extractMediaFromPageDOM_empty dom himgs hvid
  unfold extractMediaFromPage
  rcases hcache with rfl | ⟨feedData, rfl, hitems⟩
  · simp [attemptDirectFeedFetch, hdom]
  · have hparse : parseMediaFromFeed env feedData = [] := by
      unfold parseMediaFromFeed parseMediaFromFeedFull
      cases hid : extractNoteId env.pathname with
      | none => simp [hid]
      | some nid => simp [hid, hitems]
    simp [hparse, attemptDirectFeedFetch, hdom]

/-- A cached payload whose `data.items` list is missing (malformed). -/
def c5Feed : FeedApiResponse := ⟨0, true, "", ⟨none, 0, ""⟩⟩

/-- Witness for C5 at the malformed payload `c5Feed` and the empty DOM. -/
theorem c5_extract_media_empty_on_bad_input_witness :
    ((some c5Feed = none ∨
        ∃ feedData, some c5Feed = some feedData ∧ feedData.data.items = none) ∧
      (∀ s, emptyDom.queryImgSrcs s = []) ∧ (∀ s, emptyDom.queryVideo s = none)) ∧
    extractMediaFromPage baseEnv emptyDom (some c5Feed) = [] :=
  ⟨⟨Or.inr ⟨c5Feed, rfl, rfl⟩, fun _ => rfl, fun _ => rfl⟩,
   c5_extract_media_empty_on_bad_input baseEnv emptyDom (some c5Feed)
     (Or.inr ⟨c5Feed, rfl, rfl⟩) (fun _ => rfl) (fun _ => rfl)⟩

/-! ## C6: cache last-write-wins; clear empties the durable copy -/

/-- **C6.** For the source cache, `put(A)` then `put(B)` makes the
synchronous getter return `B` only (last-write-wins, no merge), and
`clear()` after any `put` makes a subsequent `getCachedFeedDataAsync`
return null (the durable copy is gone). -/
theorem c6_cache_semantics (s : CacheState) (a b : FeedApiResponse) (ta tb tc : Nat) :
    getCachedFeedData (setCachedFeedData (setCachedFeedData s a ta) b tb) = some b ∧
    (getCachedFeedDataAsync (clearFeedCache (setCachedFeedData s a tc))).1 = none :=
  ⟨rfl, rfl⟩

/-! ## C7: reads of the cached payload and the in-place `sort` -/

/-- Erase the stream lists of an item (everything else kept). -/
def stripStreams (it : FeedItem) : FeedItem :=
  match it.note_card.video with
  | none => it
  | some _ =>
    { it with note_card := { it.note_card with video := some ⟨⟨⟨[], []⟩⟩⟩ } }

/-- The two stream lists of an item (`([], [])` for a non-video item). -/
def itemStreams (it : FeedItem) : List StreamEntry × List StreamEntry :=
  match it.note_card.video with
  | none => ([], [])
  | some v => (v.media.stream.h264, v.media.stream.h265)


/-- The frame relation of the amended C7: `post` agrees with `pre` on every
top-level field; the item lists have the same shape, agree after erasing
stream lists, and corresponding stream lists are permutations of one
another. -/
def payloadFrame (post pre : FeedApiResponse) : Prop :=
  (post.code = pre.code ∧ post.success = pre.success ∧ post.msg = pre.msg ∧
    post.data.current_time = pre.data.current_time ∧
    post.data.cursor_score = pre.data.cursor_score) ∧
  ((post.data.items = none ∧ pre.data.items = none) ∨
    ∃ l m, post.data.items = some l ∧ pre.data.items = some m ∧
      l.map stripStreams = m.map stripStreams ∧
      List.Forall₂ (fun a b => (itemStreams a).1.Perm (itemStreams b).1 ∧
        (itemStreams a).2.Perm (itemStreams b).2) l m)

theorem stripStreams_sortItemStreams (it : FeedItem) :
    stripStreams (sortItemStreams it) = stripStreams it := by
  cases hv : it.note_card.video with
  | none => simp only [sortItemStreams, hv]
  | some v =>
    simp only [sortItemStreams, hv]
    by_cases h1 : v.media.stream.h264.isEmpty <;>
      by_cases h2 : v.media.stream.h265.isEmpty <;>
      simp [h1, h2, stripStreams, hv]

theorem itemStreams_sortItemStreams (it : FeedItem) :
    (itemStreams (sortItemStreams it)).1.Perm (itemStreams it).1 ∧
    (itemStreams (sortItemStreams it)).2.Perm (itemStreams it).2 := by
  cases hv : it.note_card.video with
  | none => simp only [sortItemStreams, hv]; exact ⟨List.Perm.refl _, List.Perm.refl _⟩
  | some v =>
    simp only [sortItemStreams, hv]
    by_cases h1 : v.media.stream.h264.isEmpty <;>
      by_cases h2 : v.media.stream.h265.isEmpty <;>
      simp only [h1, h2, if_true, if_false, Bool.false_eq_true, ite_false, ite_true,
        itemStreams, hv] <;>
      exact ⟨by first | exact List.Perm.refl _ | exact sortByAreaDesc_perm _,
             by first | exact List.Perm.refl _ | exact sortByAreaDesc_perm _⟩

theorem updateFirst_map_strip (p : FeedItem → Bool) (f : FeedItem → FeedItem)
    (hf : ∀ a, stripStreams (f a) = stripStreams a) :
    ∀ l : List FeedItem, (updateFirst p f l).map stripStreams = l.map stripStreams := by
  intro l
  induction l with
  | nil => rfl
  | cons x xs ih =>
    unfold updateFirst
    by_cases h : p x
    · rw [if_pos h]
      simp [hf x]
    · rw [if_neg h]
      simp [ih]

theorem updateFirst_forall₂ {R : FeedItem → FeedItem → Prop}
    (p : FeedItem → Bool) (f : FeedItem → FeedItem)
    (hf : ∀ a, R (f a) a) (hrefl : ∀ a, R a a) :
    ∀ l : List FeedItem, List.Forall₂ R (updateFirst p f l) l := by
  intro l
  induction l with
  | nil => exact List.Forall₂.nil
  | cons x xs ih =>
    unfold updateFirst
    by_cases h : p x
    · rw [if_pos h]
      exact List.Forall₂.cons (hf x) (List.forall₂_same.mpr fun a _ => hrefl a)
    · rw [if_neg h]
      exact List.Forall₂.cons (hrefl x) ih

theorem payloadFrame_refl (feedData : FeedApiResponse) : payloadFrame feedData feedData := by
  refine ⟨⟨rfl, rfl, rfl, rfl, rfl⟩, ?_⟩
  cases feedData.data.items with
  | none => exact Or.inl ⟨rfl, rfl⟩
  | some m =>
    exact Or.inr ⟨m, m, rfl, rfl, rfl,
      List.forall₂_same.mpr fun a _ => ⟨List.Perm.refl _, List.Perm.refl _⟩⟩

/-- Streams for the C7 counterexample: two h264 entries in ascending area
order, so the in-place sort reverses them. -/
def c7Stream : VideoStream :=
  ⟨[⟨"https://v.example/sd.mp4?sign=1", 1, 1, "SD", "mp4", []⟩,
    ⟨"https://v.example/hd.mp4?sign=2", 2, 2, "HD", "mp4", []⟩], []⟩

/-- Video note card carrying `c7Stream`. -/
def c7Card : FeedNoteCard := { baseCard with type := "video", video := some ⟨⟨c7Stream⟩⟩ }

/-- Feed payload whose matched item carries `c7Card`. -/
def c7Feed : FeedApiResponse := ⟨0, true, "", ⟨some [⟨"item1", "note", c7Card⟩], 0, ""⟩⟩

/-- **C7 counterexample.** Running the media normalizer on `c7Feed` mutates
the cached payload: `stream.h264.sort(...)` reorders the matched item's
h264 list in place (ascending input comes out descending), so the claim
that every read leaves the payload — including the order of its video
stream lists — unchanged is false. -/
theorem c7_counterexample :
    (parseMediaFromFeedFull baseEnv c7Feed).2 ≠ c7Feed ∧
    ((parseMediaFromFeedFull baseEnv c7Feed).2.data.items.getD []).map
        (fun it => (itemStreams it).1.map (fun e => e.master_url)) =
      [["https://v.example/hd.mp4?sign=2", "https://v.example/sd.mp4?sign=1"]] ∧
    (c7Feed.data.items.getD []).map
        (fun it => (itemStreams it).1.map (fun e => e.master_url)) =
      [["https://v.example/sd.mp4?sign=1", "https://v.example/hd.mp4?sign=2"]] := by
  decide

/-- **C7 (amended).** Reads of the source cache preserve the cached payload
*up to the order of the matched item's video stream lists*: the media
normalizer — the only reader that writes into the payload, through the
in-place `sort` — leaves every top-level field and every non-stream field
of every item unchanged and only permutes (stably sorts by area) the
stream lists of the matched video item, preserving them as multisets; the
content normalizer builds a fresh `NoteContent` and leaves the payload
untouched. -/
theorem c7_reads_preserve_payload_up_to_stream_order (env : Env)
    (feedData : FeedApiResponse) :
    payloadFrame (parseMediaFromFeedFull env feedData).2 feedData := by
  cases hid : extractNoteId env.pathname with
  | none =>
    have hpost : (parseMediaFromFeedFull env feedData).2 = feedData := by
      simp only [parseMediaFromFeedFull, hid]
    rw [hpost]
    exact payloadFrame_refl feedData
  | some nid =>
    cases hitems : feedData.data.items with
    | none =>
      have hpost : (parseMediaFromFeedFull env feedData).2 = feedData := by
        simp only [parseMediaFromFeedFull, hid, hitems]
      rw [hpost]
      exact payloadFrame_refl feedData
    | some items =>
      cases hfind : items.find? (fun it => it.note_card.note_id == nid) with
      | none =>
        have hpost : (parseMediaFromFeedFull env feedData).2 = feedData := by
          simp only [parseMediaFromFeedFull, hid, hitems, hfind]
        rw [hpost]
        exact payloadFrame_refl feedData
      | some noteItem =>
        by_cases htype : noteItem.note_card.type = "video"
        · cases hv : noteItem.note_card.video with
          | none =>
            have hpost : (parseMediaFromFeedFull env feedData).2 = feedData := by
              simp only [parseMediaFromFeedFull, hid, hitems, hfind]
              simp [htype, hv]
            rw [hpost]
            exact payloadFrame_refl feedData
          | some v =>
            have hpost : (parseMediaFromFeedFull env feedData).2 =
                { feedData with data := { feedData.data with
                  items := some (updateFirst
                    (fun it => it.note_card.note_id == nid) sortItemStreams items) } } := by
              simp only [parseMediaFromFeedFull, hid, hitems, hfind]
              simp [htype, hv]
            rw [hpost]
            refine ⟨⟨rfl, rfl, rfl, rfl, rfl⟩,
              Or.inr ⟨updateFirst (fun it => it.note_card.note_id == nid)
                sortItemStreams items, items, rfl, hitems, ?_, ?_⟩⟩
            · exact updateFirst_map_strip _ _ stripStreams_sortItemStreams items
            · exact updateFirst_forall₂ _ _ itemStreams_sortItemStreams
                (fun a => ⟨List.Perm.refl _, List.Perm.refl _⟩) items
        · have hpost : (parseMediaFromFeedFull env feedData).2 = feedData := by
            simp only [parseMediaFromFeedFull, hid, hitems, hfind]
            simp [htype]
          rw [hpost]
          exact payloadFrame_refl feedData

/-! ## C8: comment id uniqueness -/

theorem domCommentOfEl_id (env : Env) (p : Nat × DomCommentEl) (c : CommentItem)
    (h : domCommentOfEl env p = some c) : c.id = "dom_" ++ natDecimalString p.1 := by
  unfold domCommentOfEl at h
  dsimp only at h
  by_cases hlen : (jsTrim p.2.text).length > 5
  · rw [if_pos hlen, Option.some.injEq] at h
    subst h
    rfl
  · rw [if_neg hlen] at h
    exact Option.noConfusion h

theorem dom_id_inj (i j : Nat)
    (h : "dom_" ++ natDecimalString i = "dom_" ++ natDecimalString j) : i = j := by
  have h2 : "dom_".data ++ natDecimal i = "dom_".data ++ natDecimal j :=
    congrArg String.data h
  exact natDecimal_injective (List.append_cancel_left h2)

theorem dom_ids_mem (env : Env) : ∀ (els : List DomCommentEl) (n : Nat) (c : CommentItem),
    c ∈ (els.enumFrom n).filterMap (domCommentOfEl env) →
    ∃ i, n ≤ i ∧ c.id = "dom_" ++ natDecimalString i := by
  intro els
  induction els with
  | nil =>
    intro n c hc
    simp at hc
  | cons e rest ih =>
    intro n c hc
    rw [List.enumFrom_cons, List.filterMap_cons] at hc
    cases h : domCommentOfEl env (n, e) with
    | none =>
      rw [h] at hc
      obtain ⟨i, hi, hid⟩ := ih (n + 1) c hc
      exact ⟨i, by omega, hid⟩
    | some c' =>
      rw [h] at hc
      rcases List.mem_cons.mp hc with rfl | hmem
      · exact ⟨n, le_refl n, domCommentOfEl_id env _ _ h⟩
      · obtain ⟨i, hi, hid⟩ := ih (n + 1) c hmem
        exact ⟨i, by omega, hid⟩

theorem dom_ids_nodup_from (env : Env) : ∀ (els : List DomCommentEl) (n : Nat),
    (((els.enumFrom n).filterMap (domCommentOfEl env)).map (fun c => c.id)).Nodup := by
  intro els
  induction els with
  | nil =>
    intro n
    simp
  | cons e rest ih =>
    intro n
    rw [List.enumFrom_cons, List.filterMap_cons]
    cases h : domCommentOfEl env (n, e) with
    | none => exact ih (n + 1)
    | some c =>
      rw [List.map_cons, List.nodup_cons]
      refine ⟨?_, ih (n + 1)⟩
      intro hmem
      obtain ⟨c', hc', hcid⟩ := List.mem_map.mp hmem
      obtain ⟨i, hi, hid⟩ := dom_ids_mem env rest (n + 1) c' hc'
      have hcn : c.id = "dom_" ++ natDecimalString n := domCommentOfEl_id env _ _ h
      have : i = n := dom_id_inj i n (by rw [← hid, hcid, hcn])
      omega

/-- A comment-like element with long enough text to be kept. -/
def c8El : DomCommentEl := ⟨"这条评论的内容足够长", none⟩

/-- A document in which the element `c8El` is matched both by
`.comment-item` and by the broad `[class*="comment"]` selector — exactly
what happens to a real element of class `comment-item`. -/
def c8Dom : Dom :=
  { emptyDom with
    queryComments := fun sel =>
      if sel = ".comment-item" then [c8El]
      else if sel = "[class*=\"comment\"]:not([class*=\"count\"])" then [c8El]
      else [] }

/-- **C8 counterexample.** The per-selector `forEach` restarts its `index`
at 0, so an element matched by two selectors yields two comments that both
carry the id `dom_0`: the extraction's comment ids are not unique. -/
theorem c8_counterexample :
    (extractCommentsFromDOM baseEnv c8Dom).map (fun c => c.id) = ["dom_0", "dom_0"] ∧
    ¬ ((extractCommentsFromDOM baseEnv c8Dom).map (fun c => c.id)).Nodup := by
  decide

/-- **C8 (amended).** API-sourced comments keep the source-provided id
(`parseApiComments` maps ids through unchanged, so they are unique exactly
when the source ids are).  DOM-sourced comments receive synthesized
sequential ids `dom_<index>` from the element's position within one
selector's match list; these are unique *within a single selector's
results*, but the selectors are processed independently, so comments
produced by different selectors of the same extraction may share an id. -/
theorem c8_comment_ids (resp : ApiCommentResponse) (comments : List ApiComment)
    (hresp : resp.data.comments = some comments) :
    (parseApiComments resp).map (fun c => c.id) = comments.map (fun c => c.id) ∧
    ∀ (env : Env) (els : List DomCommentEl),
      ((domCommentsOfSelector env els).map (fun c => c.id)).Nodup := by
  constructor
  · unfold parseApiComments
    rw [hresp]
    simp
  · intro env els
    exact dom_ids_nodup_from env els 0

/-- The single API comment of the C8 witness. -/
def c8ApiComments : List ApiComment :=
  [⟨"cmt42", "好文！", 1700000000000, "5", "上海", ⟨"u1", "评论者", "img"⟩, none, "0"⟩]

/-- The comment-API response of the C8 witness. -/
def c8Resp : ApiCommentResponse := ⟨⟨some c8ApiComments⟩⟩

/-- Witness for the amended C8 at a concrete API response. -/
theorem c8_comment_ids_witness :
    c8Resp.data.comments = some c8ApiComments ∧
    ((parseApiComments c8Resp).map (fun c => c.id) = c8ApiComments.map (fun c => c.id) ∧
      ∀ (env : Env) (els : List DomCommentEl),
        ((domCommentsOfSelector env els).map (fun c => c.id)).Nodup) :=
  ⟨rfl, c8_comment_ids c8Resp c8ApiComments rfl⟩

/-! ## C9: comment-API miss always falls back to DOM extraction -/

/-- **C9.** In extended-content extraction, whenever the direct comment-API
step yields no comments, the DOM comment-extraction fallback is executed
and its result — possibly empty — is returned; a missing `xsec_token`
(absent from the page URL's query parameters) only makes the API step
return `[]` without a request, it never skips the fallback. -/
theorem c9_comment_api_miss_falls_back_to_dom (env : Env) (dom : Dom) (nid : String)
    (hid : extractNoteId env.pathname = some nid) :
    (lookupParam env.searchParams "xsec_token" = none →
      fetchCommentsDirectly env nid = []) ∧
    (fetchCommentsDirectly env nid = [] →
      extractComments env dom = extractCommentsFromDOM env dom) := by
  constructor
  · intro htok
    unfold fetchCommentsDirectly
    rw [htok]
  · intro hapi
    unfold extractComments
    simp only [hid]
    simp [hapi]

/-- Witness for C9: no token in the query string, so the API step is
skipped and `extractComments` returns the DOM extraction's result. -/
theorem c9_comment_api_miss_falls_back_to_dom_witness :
    extractNoteId baseEnv.pathname = some "abc123" ∧
    ((lookupParam baseEnv.searchParams "xsec_token" = none →
        fetchCommentsDirectly baseEnv "abc123" = []) ∧
      (fetchCommentsDirectly baseEnv "abc123" = [] →
        extractComments baseEnv emptyDom = extractCommentsFromDOM baseEnv emptyDom)) :=
  ⟨by decide, c9_comment_api_miss_falls_back_to_dom baseEnv emptyDom "abc123" (by decide)⟩

/-! ## C10: zip packaging — partial success, totals, progress -/

theorem zipLoop_cur (fetchOk : String → Bool) (total : Nat) :
    ∀ (l : List MediaItem) (cur : Nat) (entries : List String)
      (calls : List DownloadProgress),
      (zipLoop fetchOk total l cur entries calls).1 =
        cur + (l.filter (fun m => fetchOk m.url)).length := by
  intro l
  induction l with
  | nil =>
    intro cur entries calls
    simp [zipLoop]
  | cons m rest ih =>
    intro cur entries calls
    unfold zipLoop
    by_cases h : fetchOk m.url
    · rw [if_pos h, ih]
      simp [List.filter_cons, h]
      omega
    · rw [if_neg h, ih]
      simp [List.filter_cons, h]

theorem zipLoop_entries (fetchOk : String → Bool) (total : Nat) :
    ∀ (l : List MediaItem) (cur : Nat) (entries : List String)
      (calls : List DownloadProgress),
      (∀ m ∈ l, m.filename ∉ entries) →
      (l.map (fun m => m.filename)).Nodup →
      (zipLoop fetchOk total l cur entries calls).2.1 =
        entries ++ (l.filter (fun m => fetchOk m.url)).map (fun m => m.filename) := by
  intro l
  induction l with
  | nil =>
    intro cur entries calls _ _
    simp [zipLoop]
  | cons m rest ih =>
    intro cur entries calls hfresh hnodup
    rw [List.map_cons, List.nodup_cons] at hnodup
    have hnotin : m.filename ∉ entries := hfresh m (List.mem_cons_self _ _)
    unfold zipLoop
    by_cases h : fetchOk m.url
    · rw [if_pos h]
      have hfresh' : ∀ m' ∈ rest, m'.filename ∉ zipAdd entries m.filename := by
        intro m' hm'
        rw [zipAdd, if_neg hnotin]
        intro hmem
        rcases List.mem_append.mp hmem with hin | hin
        · exact hfresh m' (List.mem_cons_of_mem _ hm') hin
        · rw [List.mem_singleton] at hin
          exact hnodup.1 (hin ▸ List.mem_map_of_mem (fun m => m.filename) hm')
      rw [ih _ _ _ hfresh' hnodup.2]
      rw [zipAdd, if_neg hnotin]
      simp [List.filter_cons, h]
    · rw [if_neg h]
      rw [ih _ _ _ (fun m' hm' => hfresh m' (List.mem_cons_of_mem _ hm')) hnodup.2]
      simp [List.filter_cons, h]

theorem chain'_append_singleton (calls : List DownloadProgress) (c : DownloadProgress)
    (h : List.Chain' (fun a b => a.current ≤ b.current) calls)
    (hlast : ∀ p, calls.getLast? = some p → p.current ≤ c.current) :
    List.Chain' (fun a b => a.current ≤ b.current) (calls ++ [c]) := by
  apply h.append (List.chain'_singleton c)
  intro x hx y hy
  simp at hy
  subst hy
  exact hlast x (Option.mem_def.mp hx)

theorem zipLoop_calls (fetchOk : String → Bool) (total : Nat) :
    ∀ (l : List MediaItem) (cur : Nat) (entries : List String)
      (calls : List DownloadProgress),
      List.Chain' (fun a b => a.current ≤ b.current) calls →
      (∀ p, calls.getLast? = some p → p.current ≤ cur) →
      List.Chain' (fun a b => a.current ≤ b.current)
        (zipLoop fetchOk total l cur entries calls).2.2 ∧
      (∀ p, (zipLoop fetchOk total l cur entries calls).2.2.getLast? = some p →
        p.current ≤ (zipLoop fetchOk total l cur entries calls).1) := by
  intro l
  induction l with
  | nil =>
    intro cur entries calls hchain hlast
    exact ⟨hchain, hlast⟩
  | cons m rest ih =>
    intro cur entries calls hchain hlast
    unfold zipLoop
    by_cases h : fetchOk m.url
    · rw [if_pos h]
      apply ih
      · exact chain'_append_singleton calls _ hchain
          (fun p hp => le_trans (hlast p hp) (Nat.le_succ cur))
      · intro p hp
        rw [getLast?_append_singleton, Option.some.injEq] at hp
        subst hp
        exact le_refl _
    · rw [if_neg h]
      exact ih _ _ _ hchain hlast

/-- **C10.** Packaging via `downloadAsZip` with `N` media items where some
fetches fail: on success (`finalizeOk = true`, i.e. the archive is
generated) the archive holds exactly one entry per successfully fetched
media item — a failed item is skipped without aborting the batch — plus
one text entry when content is supplied; `total` equals the media-item
count plus 1 when textual content is supplied; the progress callback is
invoked with monotonically non-decreasing `current` values ending at
`current = total` with status `"complete"`.  A fatal archive failure
(`finalizeOk = false`) instead ends the callback sequence with
`{current: 0, total: 0, status: "error"}` and returns `false`. -/
theorem c10_zip_packaging (fetchOk : String → Bool) (pathname : String)
    (mediaItems : List MediaItem) (extendedContent : Option ExtendedNoteContent)
    (noteContent : Option NoteContent)
    (hnodup : (mediaItems.map (fun m => m.filename)).Nodup)
    (hfresh : ∀ m ∈ mediaItems,
      m.filename ≠ contentEntryName pathname extendedContent.isSome) :
    (let r := downloadAsZip fetchOk pathname mediaItems extendedContent noteContent true
     let hasContent := extendedContent.isSome || noteContent.isSome
     let total := mediaItems.length + (if hasContent then 1 else 0)
     r.ok = true ∧
     r.entries =
       (mediaItems.filter (fun m => fetchOk m.url)).map (fun m => m.filename) ++
         (if hasContent then [contentEntryName pathname extendedContent.isSome] else []) ∧
     r.entries.length =
       (mediaItems.filter (fun m => fetchOk m.url)).length +
         (if hasContent then 1 else 0) ∧
     List.Chain' (fun a b => a.current ≤ b.current) r.calls ∧
     r.calls.getLast? = some ⟨total, total, "complete"⟩) ∧
    (let r' := downloadAsZip fetchOk pathname mediaItems extendedContent noteContent false
     r'.ok = false ∧ r'.calls.getLast? = some ⟨0, 0, "error"⟩) := by
  constructor
  · dsimp only
    unfold downloadAsZip
    dsimp only
    rw [if_pos (show (true : Bool) = true from rfl)]
    set T := mediaItems.length +
      (if (extendedContent.isSome || noteContent.isSome : Bool) then 1 else 0) with hT
    set A := zipLoop fetchOk T mediaItems 0 [] [⟨0, T, "downloading"⟩] with hA
    have hcur : A.1 = (mediaItems.filter (fun m => fetchOk m.url)).length := by
      rw [hA, zipLoop_cur]
      omega
    have hentries : A.2.1 =
        (mediaItems.filter (fun m => fetchOk m.url)).map (fun m => m.filename) := by
      rw [hA, zipLoop_entries fetchOk T mediaItems 0 [] _ (by simp) hnodup]
      simp
    obtain ⟨hchainA, hlastA⟩ :=
      zipLoop_calls fetchOk T mediaItems 0 [] [⟨0, T, "downloading"⟩]
        (List.chain'_singleton _)
        (by
          intro p hp
          simp only [List.getLast?_singleton, Option.some.injEq] at hp
          subst hp
          exact le_refl 0)
    rw [← hA] at hchainA hlastA
    have hfl : (mediaItems.filter (fun m => fetchOk m.url)).length ≤ mediaItems.length :=
      List.length_filter_le _ _
    by_cases hc : (extendedContent.isSome || noteContent.isSome) = true
    · have hTval : T = mediaItems.length + 1 := by
        rw [hT, if_pos hc]
      have hcn : contentEntryName pathname extendedContent.isSome ∉ A.2.1 := by
        rw [hentries]
        intro hmem
        obtain ⟨m, hm, hfn⟩ := List.mem_map.mp hmem
        exact hfresh m (List.mem_of_mem_filter hm) hfn
      simp only [if_pos hc]
      refine ⟨trivial, ?_, ?_, ?_, ?_⟩
      · rw [zipAdd, if_neg hcn, hentries]
      · rw [zipAdd, if_neg hcn, hentries]
        simp
      · apply chain'_append_singleton
        · exact chain'_append_singleton _ _ hchainA
            (fun p hp => le_trans (hlastA p hp) (Nat.le_succ _))
        · intro p hp
          rw [getLast?_append_singleton, Option.some.injEq] at hp
          subst hp
          show A.1 + 1 ≤ T
          rw [hcur, hTval]
          omega
      · exact getLast?_append_singleton _ _
    · have hTval : T = mediaItems.length := by
        rw [hT, if_neg hc]
        omega
      simp only [if_neg hc]
      refine ⟨trivial, ?_, ?_, ?_, ?_⟩
      · rw [hentries, List.append_nil]
      · rw [hentries]
        simp
      · apply chain'_append_singleton _ _ hchainA
        intro p hp
        have hle := hlastA p hp
        rw [hcur] at hle
        show p.current ≤ T
        omega
      · exact getLast?_append_singleton _ _
  · dsimp only
    unfold downloadAsZip
    dsimp only
    rw [if_neg (show ¬((false : Bool) = true) from by decide)]
    exact ⟨rfl, getLast?_append_singleton _ _⟩

/-- Three media items for the C10 witness; the second one's fetch fails. -/
def c10Items : List MediaItem :=
  [⟨"https://img.example/1.jpg", "image", "image_1.jpg"⟩,
   ⟨"https://img.example/2.jpg", "image", "image_2.jpg"⟩,
   ⟨"https://v.example/1.mp4", "video", "video_1.mp4"⟩]

/-- Network model for the C10 witness: every fetch succeeds except the
second item's URL. -/
def c10Fetch : String → Bool := fun u => u != "https://img.example/2.jpg"

/-- Basic note content supplied to the C10 witness packaging run. -/
def c10Note : NoteContent := ⟨"标题", "作者", "内容", "https://www.xiaohongshu.com/explore/abc123"⟩

/-- Witness for C10: three items, the second fails, basic content supplied. -/
theorem c10_zip_packaging_witness :
    ((c10Items.map (fun m => m.filename)).Nodup ∧
      ∀ m ∈ c10Items,
        m.filename ≠ contentEntryName "/explore/abc123"
          (none : Option ExtendedNoteContent).isSome) ∧
    ((let r := downloadAsZip c10Fetch "/explore/abc123" c10Items none (some c10Note) true
      let hasContent := (none : Option ExtendedNoteContent).isSome || (some c10Note).isSome
      let total := c10Items.length + (if hasContent then 1 else 0)
      r.ok = true ∧
      r.entries =
        (c10Items.filter (fun m => c10Fetch m.url)).map (fun m => m.filename) ++
          (if hasContent then
            [contentEntryName "/explore/abc123" (none : Option ExtendedNoteContent).isSome]
          else []) ∧
      r.entries.length =
        (c10Items.filter (fun m => c10Fetch m.url)).length +
          (if hasContent then 1 else 0) ∧
      List.Chain' (fun a b => a.current ≤ b.current) r.calls ∧
      r.calls.getLast? = some ⟨total, total, "complete"⟩) ∧
     (let r' := downloadAsZip c10Fetch "/explore/abc123" c10Items none (some c10Note) false
      r'.ok = false ∧ r'.calls.getLast? = some ⟨0, 0, "error"⟩)) :=
  ⟨⟨by decide, by decide⟩,
   c10_zip_packaging c10Fetch "/explore/abc123" c10Items none (some c10Note)
     (by decide) (by decide)⟩
